import Mathlib

/-!
Verification of the BlenderDataVis chart-layout behaviour.

The development shallowly embeds the bar-chart build procedure
(`OBJECT_OT_BarChart.execute` in `data_vis/operators/bar_chart.py`) and the
axis-component helpers (`data_vis/geonodes/components.py`).  Numeric values
are modelled as rationals.  Helper functions that the operator imports from
modules outside the embedded sources (`normalize_value`, `find_axis_range`,
`find_data_range`, `in_axis_range_bounds_new`) are modelled from the
specification and are marked as such in their doc comments.
-/

namespace DataVis

/-- Requested chart dimensionality, the `dimensions` enum of the operator
(`'2'` or `'3'`). -/
inductive Dims where
  | two
  | three
deriving DecidableEq, Repr

/-- The axis settings consumed by `execute`: the `auto_ranges` flag and the
explicit x/y ranges of `DV_AxisPropertyGroup`. -/
structure AxisSettings where
  auto_ranges : Bool
  x_range : ℚ × ℚ
  y_range : ℚ × ℚ
deriving DecidableEq, Repr

/-- One bar placement: the `location` and `scale` assigned to the cube object
created for a retained data row. -/
structure Placement where
  location : ℚ × ℚ × ℚ
  scale : ℚ × ℚ × ℚ
deriving DecidableEq, Repr

/-- Errors reported by the build (`self.report({'ERROR'}, ...)` followed by
`return {'CANCELLED'}`), plus the uncaught-exception case on empty data. -/
inductive BuildError where
  | dimensionMismatch
  | rangeNotFound
  | emptyData
deriving DecidableEq, Repr

/-- Operator return status: `{'FINISHED'}` or `{'CANCELLED'}` with the
reported error. -/
inductive ExecStatus where
  | finished
  | cancelled (e : BuildError)
deriving DecidableEq, Repr

/-- The arguments handed to `AxisFactory.create` at the end of a successful
build: the three axis ranges, the integer dimensionality, and the tick
labels collected for the x axis. -/
structure AxisFactoryArgs where
  ranges : (ℚ × ℚ) × (ℚ × ℚ) × (ℚ × ℚ)
  dims : Nat
  tick_labels : List String
deriving DecidableEq, Repr

/-- Observable outcome of one `execute` invocation: the returned status, the
scene objects created (container flag and bar placements), the collected
tick labels, and the axis-factory call if one was made. -/
structure ExecOutcome where
  status : ExecStatus
  container_created : Bool
  placements : List Placement
  tick_labels : List String
  axis_spec : Option AxisFactoryArgs
deriving DecidableEq, Repr

/-- Input data: a numerical table (rows of 2 or 3 floats) or a categorical
table (label, value); this mirrors the operator's `data_type` enum together
with the loaded `self.data`. -/
inductive ChartData where
  | numerical (rows : List (List ℚ))
  | categorical (rows : List (String × ℚ))
deriving DecidableEq, Repr

/-- Modelled from the spec: `normalize_value` from `data_vis.utils.data_utils`
(not among the embedded sources).  Spec 4.3: linear map
`(value - min) / (max - min)` onto `[0, 1]`. -/
def normalize_value (v vmin vmax : ℚ) : ℚ :=
  (v - vmin) / (vmax - vmin)

/-- Modelled from the spec: `find_axis_range` from `data_vis.utils.data_utils`
(not among the embedded sources).  Spec 4.2: scan the indexed column across
all rows tracking running min/max; fails when the column is empty. -/
def find_axis_range (rows : List (List ℚ)) (idx : Nat) : Option (ℚ × ℚ) :=
  match rows.filterMap (fun r => r.get? idx) with
  | [] => none
  | v :: vs => some (vs.foldl min v, vs.foldl max v)

/-- Index of the value column in a row, lines 104-107 of `bar_chart.py`:
column 1 for 2D charts, column 2 for 3D charts. -/
def valueIndex : Dims → Nat
  | Dims.two => 1
  | Dims.three => 2

/-- Dimensionality as the integer passed to `AxisFactory.create`
(`int(self.dimensions)`). -/
def dimsToNat : Dims → Nat
  | Dims.two => 2
  | Dims.three => 3

/-- Membership of a value in a closed range. -/
def inRange (v : ℚ) (r : ℚ × ℚ) : Bool :=
  decide (r.1 ≤ v ∧ v ≤ r.2)

/-- Modelled from the spec: the bounds filter `in_axis_range_bounds_new` from
`data_vis.general` (not among the embedded sources), applied to numerical
rows.  Spec 4.2: rows whose positional value lies outside the resolved range
are excluded from placement; the x value is checked always and the y value
only for 3D charts. -/
def in_axis_range_bounds_num (dims : Dims) (s : AxisSettings) (entry : List ℚ) : Bool :=
  inRange (entry.getD 0 0) s.x_range &&
    (if dims = Dims.three then inRange (entry.getD 1 0) s.y_range else true)

/-- Modelled from the spec: the bounds filter applied to categorical rows.
Spec 4.2/3: the filter drops rows whose value lies outside the resolved
range; a categorical row's x raw value is its row index, which always lies
in the resolved range `[0, n-1]`, so every categorical row is retained. -/
def in_axis_range_bounds_cat (_entry : String × ℚ) : Bool :=
  true

/-- Modelled from the spec: `find_data_range` from `data_vis.utils.data_utils`
(not among the embedded sources).  Spec 4.2: resolve the value-axis range as
the min/max of the value column over the rows retained by the bounds filter;
fails (the caught exception of lines 92-96) when no row is in range. -/
def find_data_range (rows : List (List ℚ)) (dims : Dims) (s : AxisSettings) :
    Option (ℚ × ℚ) :=
  match (rows.filter (in_axis_range_bounds_num dims s)).filterMap
      (fun r => r.get? (valueIndex dims)) with
  | [] => none
  | v :: vs => some (vs.foldl min v, vs.foldl max v)

/-- The near-zero clamp of lines 123-124 of `bar_chart.py`:
`if z_norm >= 0.0 and z_norm <= 0.0001: z_norm = 0.0001`. -/
def clamp_z (z : ℚ) : ℚ :=
  if 0 ≤ z ∧ z ≤ 1 / 10000 then 1 / 10000 else z

/-- Loop body of lines 113-131 of `bar_chart.py` for a numerical entry:
normalize x (and y for 3D) positionally, normalize then clamp the value
axis, and place a cube scaled and centred at half the normalized height.
The enumeration index is unused for numerical data. -/
def placeNumEntry (dims : Dims) (s : AxisSettings) (bar_size : ℚ × ℚ)
    (dmin dmax : ℚ) (entry : List ℚ) : Placement :=
  let x_norm := normalize_value (entry.getD 0 0) s.x_range.1 s.x_range.2
  let z_norm := clamp_z (normalize_value (entry.getD (valueIndex dims) 0) dmin dmax)
  match dims with
  | Dims.two =>
      { location := (x_norm, 0, z_norm * (1 / 2))
        scale := (bar_size.1, bar_size.2, z_norm * (1 / 2)) }
  | Dims.three =>
      let y_norm := normalize_value (entry.getD 1 0) s.y_range.1 s.y_range.2
      { location := (x_norm, y_norm, z_norm * (1 / 2))
        scale := (bar_size.1, bar_size.2, z_norm * (1 / 2)) }

/-- Loop body of lines 113-127 of `bar_chart.py` for a categorical entry:
the raw x value is the row index `i`, the value sits in column 1, and the
chart is always 2D. -/
def placeCatEntry (s : AxisSettings) (bar_size : ℚ × ℚ)
    (dmin dmax : ℚ) (i : Nat) (v : ℚ) : Placement :=
  let x_norm := normalize_value (i : ℚ) s.x_range.1 s.x_range.2
  let z_norm := clamp_z (normalize_value v dmin dmax)
  { location := (x_norm, 0, z_norm * (1 / 2))
    scale := (bar_size.1, bar_size.2, z_norm * (1 / 2)) }

/-- Embedding of `OBJECT_OT_BarChart.execute` (lines 76-149 of
`bar_chart.py`).  Numerical path: optional auto-ranging (`init_range`), the
3D dimensionality check against the first row's arity, container creation,
value-range resolution with the caught-exception fallback, then one
placement per retained row.  Categorical path: `dimensions` is forced to
`'2'` and the x range to `[0, len(data) - 1]` before the dimensionality
check, so that check cannot fail; the value range is the min/max of column
1 (Python `min`/`max` raise on empty data, modelled as `emptyData`); tick
labels are collected from retained rows in data order. -/
def barExecute (dims0 : Dims) (s0 : AxisSettings) (bar_size : ℚ × ℚ)
    (data : ChartData) : ExecOutcome :=
  match data with
  | ChartData.numerical rows =>
      let sOpt : Option AxisSettings :=
        if s0.auto_ranges then
          match find_axis_range rows 0, find_axis_range rows 1 with
          | some xr, some yr => some { s0 with x_range := xr, y_range := yr }
          | _, _ => none
        else some s0
      match sOpt with
      | none =>
          { status := ExecStatus.cancelled BuildError.emptyData
            container_created := false
            placements := []
            tick_labels := []
            axis_spec := none }
      | some s =>
          if dims0 = Dims.three ∧ (rows.headD []).length ≠ 3 then
            { status := ExecStatus.cancelled BuildError.dimensionMismatch
              container_created := false
              placements := []
              tick_labels := []
              axis_spec := none }
          else
            match find_data_range rows dims0 s with
            | none =>
                { status := ExecStatus.cancelled BuildError.rangeNotFound
                  container_created := true
                  placements := []
                  tick_labels := []
                  axis_spec := none }
            | some (dmin, dmax) =>
                let retained := rows.filter (in_axis_range_bounds_num dims0 s)
                { status := ExecStatus.finished
                  container_created := true
                  placements := retained.map (placeNumEntry dims0 s bar_size dmin dmax)
                  tick_labels := []
                  axis_spec := some
                    { ranges := (s.x_range, s.y_range, (dmin, dmax))
                      dims := dimsToNat dims0
                      tick_labels := [] } }
  | ChartData.categorical rows =>
      let s := { s0 with x_range := ((0 : ℚ), (rows.length : ℚ) - 1) }
      match rows.map Prod.snd with
      | [] =>
          { status := ExecStatus.cancelled BuildError.emptyData
            container_created := true
            placements := []
            tick_labels := []
            axis_spec := none }
      | v :: vs =>
          let dmin := vs.foldl min v
          let dmax := vs.foldl max v
          let retained := rows.enum.filter (fun ie => in_axis_range_bounds_cat ie.2)
          let labels := retained.map (fun ie => ie.2.1)
          { status := ExecStatus.finished
            container_created := true
            placements := retained.map (fun ie => placeCatEntry s bar_size dmin dmax ie.1 ie.2.2)
            tick_labels := labels
            axis_spec := some
              { ranges := (s.x_range, s0.y_range, (dmin, dmax))
                dims := 2
                tick_labels := labels } }

/-- Inputs written to a categorical axis modifier by
`DV_AddAxis._setup_categorical_axis` (lines 175-185 of `components.py`):
`Tick Count` is the number of categories and `Labels` joins the category
strings with commas. -/
structure CategoricalAxisInputs where
  tick_count : Nat
  labels : String
deriving DecidableEq, Repr

/-- Embedding of `DV_AddAxis._setup_categorical_axis`:
`set_input(mod, "Tick Count", len(categories))` and
`set_input(mod, "Labels", ",".join(categories))`. -/
def setup_categorical_axis (categories : List String) : CategoricalAxisInputs :=
  { tick_count := categories.length
    labels := String.intercalate "," categories }

/-- The code-point ranges of the Unicode category Nd (decimal digits),
which is what Python's `\d` matches in a `str` pattern.  Ranges as of
Unicode 15.1 (the database of CPython 3.13); the ranges starting at
0x16AC0 (added in Unicode 14.0), 0x11F50 and 0x1E4F0 (added in 15.0) are
absent from the older databases shipped with CPython 3.10/3.11. -/
def pyDigitRanges : List (Nat × Nat) :=
  [(0x30, 0x39), (0x660, 0x669), (0x6F0, 0x6F9), (0x7C0, 0x7C9),
   (0x966, 0x96F), (0x9E6, 0x9EF), (0xA66, 0xA6F), (0xAE6, 0xAEF),
   (0xB66, 0xB6F), (0xBE6, 0xBEF), (0xC66, 0xC6F), (0xCE6, 0xCEF),
   (0xD66, 0xD6F), (0xDE6, 0xDEF), (0xE50, 0xE59), (0xED0, 0xED9),
   (0xF20, 0xF29), (0x1040, 0x1049), (0x1090, 0x1099), (0x17E0, 0x17E9),
   (0x1810, 0x1819), (0x1946, 0x194F), (0x19D0, 0x19D9), (0x1A80, 0x1A89),
   (0x1A90, 0x1A99), (0x1B50, 0x1B59), (0x1BB0, 0x1BB9), (0x1C40, 0x1C49),
   (0x1C50, 0x1C59), (0xA620, 0xA629), (0xA8D0, 0xA8D9), (0xA900, 0xA909),
   (0xA9D0, 0xA9D9), (0xA9F0, 0xA9F9), (0xAA50, 0xAA59), (0xABF0, 0xABF9),
   (0xFF10, 0xFF19), (0x104A0, 0x104A9), (0x10D30, 0x10D39),
   (0x11066, 0x1106F), (0x110F0, 0x110F9), (0x11136, 0x1113F),
   (0x111D0, 0x111D9), (0x112F0, 0x112F9), (0x11450, 0x11459),
   (0x114D0, 0x114D9), (0x11650, 0x11659), (0x116C0, 0x116C9),
   (0x11730, 0x11739), (0x118E0, 0x118E9), (0x11950, 0x11959),
   (0x11C50, 0x11C59), (0x11D50, 0x11D59), (0x11DA0, 0x11DA9),
   (0x11F50, 0x11F59), (0x16A60, 0x16A69), (0x16AC0, 0x16AC9),
   (0x16B50, 0x16B59), (0x1D7CE, 0x1D7FF), (0x1E140, 0x1E149),
   (0x1E2F0, 0x1E2F9), (0x1E4F0, 0x1E4F9), (0x1E950, 0x1E959),
   (0x1FBF0, 0x1FBF9)]

/-- Python's `\d` for `str` patterns: membership in the Unicode category Nd
(decimal digit). -/
def isPyDigit (c : Char) : Bool :=
  pyDigitRanges.any (fun r => r.1 ≤ c.toNat && c.toNat ≤ r.2)

/-- Core of the suffix strip on a reversed character list: if the list
starts with a non-empty digit run followed by a dot, drop both; otherwise
return the list unchanged.  This is the unique possible match of the
anchored pattern `(\.\d+)$` at a given end-of-match position: the dot just
before the maximal digit run ending there. -/
def stripRev (rev : List Char) : List Char :=
  match rev.takeWhile isPyDigit, rev.dropWhile isPyDigit with
  | _ :: _, c :: rest => if c = '.' then rest else rev
  | _, _ => rev

/-- Embedding of `remove_duplicate_suffix` from `components.py`:
`DUPLICATE_SUFFIX_RE = re.compile(r"(\.\d+)$")` and
`DUPLICATE_SUFFIX_RE.sub("", name)`.  Python semantics: `\d` matches any
Unicode decimal digit (`isPyDigit`), and `$` matches at the end of the
string or immediately before a newline that ends the string.  A match must
therefore be a dot plus the maximal digit run ending at the end of the
name, or, when the name ends with a newline, ending just before that final
newline; at most one such match exists, and the substitution removes it.
Modelled on the character list of the name. -/
def removeDuplicateSuffix (name : List Char) : List Char :=
  match name.reverse with
  | c :: brev =>
      if c = '\n' then (stripRev brev).reverse ++ ['\n']
      else (stripRev (c :: brev)).reverse
  | [] => name

theorem foldl_min_le_self (v : ℚ) (vs : List ℚ) : vs.foldl min v ≤ v := by
  induction vs generalizing v with
  | nil => simp
  | cons a t ih =>
    rw [List.foldl_cons]
    exact le_trans (ih (min v a)) (min_le_left v a)

theorem foldl_min_le (v x : ℚ) (vs : List ℚ) (hx : x ∈ vs) : vs.foldl min v ≤ x := by
  induction vs generalizing v with
  | nil => simp at hx
  | cons a t ih =>
    rw [List.foldl_cons]
    rcases List.mem_cons.1 hx with h | h
    · subst h
      exact le_trans (foldl_min_le_self _ _) (min_le_right v x)
    · exact ih (min v a) h

theorem foldl_min_mem (v : ℚ) (vs : List ℚ) : vs.foldl min v ∈ v :: vs := by
  induction vs generalizing v with
  | nil => simp
  | cons a t ih =>
    rw [List.foldl_cons]
    rcases List.mem_cons.1 (ih (min v a)) with h | h
    · rcases le_total v a with hva | hav
      · rw [h, min_eq_left hva]
        exact List.mem_cons_self _ _
      · rw [h, min_eq_right hav]
        simp
    · simp [h]

theorem foldl_max_self_le (v : ℚ) (vs : List ℚ) : v ≤ vs.foldl max v := by
  induction vs generalizing v with
  | nil => simp
  | cons a t ih =>
    rw [List.foldl_cons]
    exact le_trans (le_max_left v a) (ih (max v a))

theorem foldl_max_le (v x : ℚ) (vs : List ℚ) (hx : x ∈ vs) : x ≤ vs.foldl max v := by
  induction vs generalizing v with
  | nil => simp at hx
  | cons a t ih =>
    rw [List.foldl_cons]
    rcases List.mem_cons.1 hx with h | h
    · subst h
      exact le_trans (le_max_right v x) (foldl_max_self_le _ _)
    · exact ih (max v a) h

theorem foldl_max_mem (v : ℚ) (vs : List ℚ) : vs.foldl max v ∈ v :: vs := by
  induction vs generalizing v with
  | nil => simp
  | cons a t ih =>
    rw [List.foldl_cons]
    rcases List.mem_cons.1 (ih (max v a)) with h | h
    · rcases le_total v a with hva | hav
      · rw [h, max_eq_right hva]
        simp
      · rw [h, max_eq_left hav]
        exact List.mem_cons_self _ _
    · simp [h]

/-- C1: during a chart build, a normalized value-axis result in the closed
interval `[0, 0.0001]` is raised to `0.0001` (so a zero-valued entry never
yields a normalized height of exactly 0), larger results are left untouched,
and the clamp is applied only to the value axis: the x location (and for 3D
the y location) of a placed bar is the raw normalized value without any
clamp. -/
theorem bar_value_axis_clamp (dims : Dims) (s : AxisSettings) (bs : ℚ × ℚ)
    (dmin dmax : ℚ) (entry : List ℚ) (z : ℚ) :
    (0 ≤ z → z ≤ 1 / 10000 → clamp_z z = 1 / 10000) ∧
    (1 / 10000 < z → clamp_z z = z) ∧
    ((placeNumEntry dims s bs dmin dmax entry).location.2.2 =
      clamp_z (normalize_value (entry.getD (valueIndex dims) 0) dmin dmax) * (1 / 2)) ∧
    ((placeNumEntry dims s bs dmin dmax entry).location.1 =
      normalize_value (entry.getD 0 0) s.x_range.1 s.x_range.2) ∧
    (dims = Dims.three →
      (placeNumEntry dims s bs dmin dmax entry).location.2.1 =
        normalize_value (entry.getD 1 0) s.y_range.1 s.y_range.2) := by
  refine ⟨?_, ?_, ?_, ?_, ?_⟩
  · intro h1 h2
    rw [clamp_z, if_pos ⟨h1, h2⟩]
  · intro h
    have hne : ¬(0 ≤ z ∧ z ≤ 1 / 10000) := fun hc => absurd h (not_lt.2 hc.2)
    rw [clamp_z, if_neg hne]
  · cases dims <;> simp [placeNumEntry]
  · cases dims <;> simp [placeNumEntry]
  · intro h
    subst h
    simp [placeNumEntry]

/-- Witness for C1 at concrete inputs: the zero height is clamped to
`0.0001`, a full height is untouched, and the x position of a concrete bar
is the raw normalized value. -/
theorem bar_value_axis_clamp_witness :
    clamp_z 0 = 1 / 10000 ∧ clamp_z 1 = 1 ∧
    (placeNumEntry Dims.two ⟨false, (0, 1), (0, 1)⟩ (1 / 20, 1 / 20) 0 10
      [3, 0]).location.1 = normalize_value 3 0 1 := by
  refine ⟨(bar_value_axis_clamp Dims.two ⟨false, (0, 1), (0, 1)⟩ (1 / 20, 1 / 20)
      0 10 [3, 0] 0).1 le_rfl (by norm_num),
    (bar_value_axis_clamp Dims.two ⟨false, (0, 1), (0, 1)⟩ (1 / 20, 1 / 20)
      0 10 [3, 0] 1).2.1 (by norm_num),
    (bar_value_axis_clamp Dims.two ⟨false, (0, 1), (0, 1)⟩ (1 / 20, 1 / 20)
      0 10 [3, 0] 0).2.2.2.1⟩

/-- C2: in any bar build (2D or 3D) with an explicit bounds filter active
(`auto_ranges = false`), a row outside the resolved axis ranges produces no
placement and no error, and every row inside the ranges produces exactly
one placement: provided the dimensionality check passes and some row is in
range, the build finishes and its placements are exactly the in-range rows
mapped through the placement computation, in order. -/
theorem bar_bounds_filter (dims0 : Dims) (s : AxisSettings) (bs : ℚ × ℚ)
    (rows : List (List ℚ)) (dmin dmax : ℚ)
    (h_auto : s.auto_ranges = false)
    (hdim : ¬(dims0 = Dims.three ∧ (rows.headD []).length ≠ 3))
    (hfd : find_data_range rows dims0 s = some (dmin, dmax)) :
    (barExecute dims0 s bs (ChartData.numerical rows)).status =
      ExecStatus.finished ∧
    (barExecute dims0 s bs (ChartData.numerical rows)).placements =
      (rows.filter (in_axis_range_bounds_num dims0 s)).map
        (placeNumEntry dims0 s bs dmin dmax) := by
  have hdim' : ¬(dims0 = Dims.three ∧ ¬(rows.head?.getD []).length = 3) := by
    simpa using hdim
  simp [barExecute, h_auto, hfd, hdim']

/-- Witness for C2: in 2D, rows with x values 1, 3, 5, 9 under the explicit
filter range `[2, 8]` yield exactly the two placements for x = 3 and x = 5;
in 3D, rows under x range `[2, 8]` and y range `[0, 3]` yield exactly the
one placement whose x and y both lie in range. -/
theorem bar_bounds_filter_witness :
    (barExecute Dims.two ⟨false, (2, 8), (0, 1)⟩ (1 / 20, 1 / 20)
      (ChartData.numerical [[1, 10], [3, 20], [5, 30], [9, 40]])).status =
      ExecStatus.finished ∧
    (barExecute Dims.two ⟨false, (2, 8), (0, 1)⟩ (1 / 20, 1 / 20)
      (ChartData.numerical [[1, 10], [3, 20], [5, 30], [9, 40]])).placements =
      [placeNumEntry Dims.two ⟨false, (2, 8), (0, 1)⟩ (1 / 20, 1 / 20) 20 30 [3, 20],
       placeNumEntry Dims.two ⟨false, (2, 8), (0, 1)⟩ (1 / 20, 1 / 20) 20 30 [5, 30]] ∧
    (barExecute Dims.three ⟨false, (2, 8), (0, 3)⟩ (1 / 20, 1 / 20)
      (ChartData.numerical [[1, 1, 10], [3, 5, 20], [5, 2, 30]])).status =
      ExecStatus.finished ∧
    (barExecute Dims.three ⟨false, (2, 8), (0, 3)⟩ (1 / 20, 1 / 20)
      (ChartData.numerical [[1, 1, 10], [3, 5, 20], [5, 2, 30]])).placements =
      [placeNumEntry Dims.three ⟨false, (2, 8), (0, 3)⟩ (1 / 20, 1 / 20) 30 30
        [5, 2, 30]] := by
  have h2 := bar_bounds_filter Dims.two ⟨false, (2, 8), (0, 1)⟩ (1 / 20, 1 / 20)
    [[1, 10], [3, 20], [5, 30], [9, 40]] 20 30 rfl (by decide) rfl
  have h3 := bar_bounds_filter Dims.three ⟨false, (2, 8), (0, 3)⟩ (1 / 20, 1 / 20)
    [[1, 1, 10], [3, 5, 20], [5, 2, 30]] 30 30 rfl (by decide) rfl
  exact ⟨h2.1, by rw [h2.2]; rfl, h3.1, by rw [h3.2]; rfl⟩

/-- C3: a chart build on categorical data produces a 2D layout regardless of
the requested dimensionality: a `dimensions = '3'` request on non-empty
categorical data finishes without error (the 3D dimensionality check does
not fail the build), the axis factory receives dimensionality 2, and every
placement has y coordinate 0. -/
theorem categorical_forces_2d (s0 : AxisSettings) (bs : ℚ × ℚ)
    (rows : List (String × ℚ)) (h : rows ≠ []) :
    (barExecute Dims.three s0 bs (ChartData.categorical rows)).status =
      ExecStatus.finished ∧
    (barExecute Dims.three s0 bs (ChartData.categorical rows)).axis_spec.map
      AxisFactoryArgs.dims = some 2 ∧
    ∀ p ∈ (barExecute Dims.three s0 bs (ChartData.categorical rows)).placements,
      p.location.2.1 = 0 := by
  cases rows with
  | nil => simp at h
  | cons r rest =>
    refine ⟨by simp [barExecute], by simp [barExecute], ?_⟩
    intro p hp
    simp [barExecute, in_axis_range_bounds_cat, placeCatEntry] at hp
    obtain ⟨a, b, c, _, hpe⟩ := hp
    rw [← hpe]

/-- Witness for C3: a concrete two-row categorical table built with a 3D
request finishes with a 2D axis factory call. -/
theorem categorical_forces_2d_witness :
    (barExecute Dims.three ⟨true, (0, 1), (0, 1)⟩ (1 / 20, 1 / 20)
      (ChartData.categorical [("A", 1), ("B", 2)])).status =
      ExecStatus.finished ∧
    (barExecute Dims.three ⟨true, (0, 1), (0, 1)⟩ (1 / 20, 1 / 20)
      (ChartData.categorical [("A", 1), ("B", 2)])).axis_spec.map
      AxisFactoryArgs.dims = some 2 := by
  have h := categorical_forces_2d ⟨true, (0, 1), (0, 1)⟩ (1 / 20, 1 / 20)
    [("A", 1), ("B", 2)] (by simp)
  exact ⟨h.1, h.2.1⟩

/-- Counterexample to C4 as frozen: a 3D request over the one-column
numerical table `[[5]]` with auto ranges enabled does not fail with the
dimension-mismatch error: range resolution (`init_range`, which reads
column 1 of every row) fails on the missing column before the
dimensionality check at line 86 is ever reached, so the build is cancelled
with the empty-data error instead. -/
theorem numerical_3d_dimension_mismatch_counterexample :
    (barExecute Dims.three ⟨true, (0, 1), (0, 1)⟩ (1 / 20, 1 / 20)
      (ChartData.numerical [[5]])).status =
      ExecStatus.cancelled BuildError.emptyData ∧
    (barExecute Dims.three ⟨true, (0, 1), (0, 1)⟩ (1 / 20, 1 / 20)
      (ChartData.numerical [[5]])).status ≠
      ExecStatus.cancelled BuildError.dimensionMismatch := by
  refine ⟨by decide, by decide⟩

/-- C4 (amended): a 3D build request on non-empty numerical data whose rows
have 2 columns (fewer than 3, but enough for range resolution to read the
x and y columns) is cancelled with the dimension-mismatch error and
produces no placements and no axis-factory call; a 1-column table under
auto ranges instead fails earlier, during range resolution. -/
theorem numerical_3d_dimension_mismatch (s0 : AxisSettings) (bs : ℚ × ℚ)
    (rows : List (List ℚ)) (h1 : rows ≠ [])
    (h2 : ∀ r ∈ rows, r.length = 2) :
    (barExecute Dims.three s0 bs (ChartData.numerical rows)).status =
      ExecStatus.cancelled BuildError.dimensionMismatch ∧
    (barExecute Dims.three s0 bs (ChartData.numerical rows)).placements = [] ∧
    (barExecute Dims.three s0 bs (ChartData.numerical rows)).axis_spec = none ∧
    (barExecute Dims.three s0 bs (ChartData.numerical rows)).container_created =
      false := by
  cases rows with
  | nil => simp at h1
  | cons r rest =>
    have hr : r.length = 2 := h2 r (List.mem_cons_self _ _)
    have hx : ∃ x, r.get? 0 = some x := by
      cases r with
      | nil => simp at hr
      | cons a t => exact ⟨a, rfl⟩
    have hy : ∃ y, r.get? 1 = some y := by
      cases r with
      | nil => simp at hr
      | cons a t =>
        cases t with
        | nil => simp at hr
        | cons b u => exact ⟨b, rfl⟩
    obtain ⟨x, hx⟩ := hx
    obtain ⟨y, hy⟩ := hy
    have hlen : ((r :: rest).headD []).length ≠ 3 := by simp [hr]
    by_cases hauto : s0.auto_ranges
    · have hfx : ∃ p, find_axis_range (r :: rest) 0 = some p := by
        rw [find_axis_range]
        simp only [List.filterMap_cons, hx]
        exact ⟨_, rfl⟩
      have hfy : ∃ p, find_axis_range (r :: rest) 1 = some p := by
        rw [find_axis_range]
        simp only [List.filterMap_cons, hy]
        exact ⟨_, rfl⟩
      obtain ⟨px, hfx⟩ := hfx
      obtain ⟨py, hfy⟩ := hfy
      refine ⟨?_, ?_, ?_, ?_⟩ <;>
        simp [barExecute, hauto, hfx, hfy, hlen, hr]
    · refine ⟨?_, ?_, ?_, ?_⟩ <;>
        simp [barExecute, hauto, hlen, hr]

/-- Witness for C4: a concrete one-row, two-column numerical table under a
3D request is cancelled with the dimension mismatch error. -/
theorem numerical_3d_dimension_mismatch_witness :
    (barExecute Dims.three ⟨true, (0, 1), (0, 1)⟩ (1 / 20, 1 / 20)
      (ChartData.numerical [[1, 2]])).status =
      ExecStatus.cancelled BuildError.dimensionMismatch ∧
    (barExecute Dims.three ⟨true, (0, 1), (0, 1)⟩ (1 / 20, 1 / 20)
      (ChartData.numerical [[1, 2]])).placements = [] := by
  have h := numerical_3d_dimension_mismatch ⟨true, (0, 1), (0, 1)⟩
    (1 / 20, 1 / 20) [[1, 2]] (by simp) (by simp)
  exact ⟨h.1, h.2.1⟩

theorem enum_map_fst_fun {α β : Type} (l : List α) (g : Nat → β) :
    l.enum.map (fun ie => g ie.1) = (List.range l.length).map g := by
  have hc : (fun ie : Nat × α => g ie.1) = g ∘ Prod.fst := rfl
  rw [hc, ← List.map_map, List.enum_map_fst]

/-- C5: a categorical build over `n` rows sets the x axis range to
`[0, n-1]`, uses each retained row's index `i` as its raw x value, and
places it at normalized x position `i / (n-1)`. -/
theorem categorical_x_positions (dims0 : Dims) (s0 : AxisSettings)
    (bs : ℚ × ℚ) (rows : List (String × ℚ)) (h : rows ≠ []) :
    (barExecute dims0 s0 bs (ChartData.categorical rows)).axis_spec.map
      (fun a => a.ranges.1) = some ((0 : ℚ), (rows.length : ℚ) - 1) ∧
    (barExecute dims0 s0 bs (ChartData.categorical rows)).placements.map
      (fun p => p.location.1) =
      (List.range rows.length).map
        (fun (i : Nat) => (i : ℚ) / ((rows.length : ℚ) - 1)) := by
  cases rows with
  | nil => simp at h
  | cons r rest =>
    refine ⟨by simp [barExecute], ?_⟩
    simp only [barExecute, List.map_cons, in_axis_range_bounds_cat,
      List.filter_true, List.map_map]
    rw [show ((fun p : Placement => p.location.1) ∘ fun ie : Nat × String × ℚ =>
        placeCatEntry { s0 with
          x_range := ((0 : ℚ), ((r :: rest).length : ℚ) - 1) } bs
          (List.foldl min r.2 (rest.map Prod.snd))
          (List.foldl max r.2 (rest.map Prod.snd)) ie.1 ie.2.2) =
      (fun ie : Nat × String × ℚ =>
        ((ie.1 : ℚ) / (((r :: rest).length : ℚ) - 1)))
      from funext fun ie => by
        simp [placeCatEntry, normalize_value]]
    exact enum_map_fst_fun (r :: rest)
      (fun (i : Nat) => (i : ℚ) / (((r :: rest).length : ℚ) - 1))

/-- Witness for C5: three categories are placed at normalized x positions
`0`, `1/2`, `1` over the x range `[0, 2]`. -/
theorem categorical_x_positions_witness :
    (barExecute Dims.two ⟨true, (0, 1), (0, 1)⟩ (1 / 20, 1 / 20)
      (ChartData.categorical [("A", 1), ("B", 2), ("C", 3)])).axis_spec.map
      (fun a => a.ranges.1) = some ((0 : ℚ), 2) ∧
    (barExecute Dims.two ⟨true, (0, 1), (0, 1)⟩ (1 / 20, 1 / 20)
      (ChartData.categorical [("A", 1), ("B", 2), ("C", 3)])).placements.map
      (fun p => p.location.1) = [0, 1 / 2, 1] := by
  have h := categorical_x_positions Dims.two ⟨true, (0, 1), (0, 1)⟩
    (1 / 20, 1 / 20) [("A", 1), ("B", 2), ("C", 3)] (by simp)
  refine ⟨?_, ?_⟩
  · rw [h.1]
    norm_num
  · rw [h.2]
    norm_num [List.range_succ]

theorem enum_map_snd_fun {α β : Type} (l : List α) (g : α → β) :
    l.enum.map (fun ie => g ie.2) = l.map g := by
  have hc : (fun ie : Nat × α => g ie.2) = g ∘ Prod.snd := rfl
  rw [hc, ← List.map_map, List.enum_map_snd]

/-- C6: categorical tick planning yields exactly one tick per category: the
axis modifier's tick count is the number of categories, and the tick labels
collected by a categorical build are the category strings verbatim in data
order. -/
theorem categorical_tick_plan (cats : List String) (dims0 : Dims)
    (s0 : AxisSettings) (bs : ℚ × ℚ) (rows : List (String × ℚ)) :
    (setup_categorical_axis cats).tick_count = cats.length ∧
    (barExecute dims0 s0 bs (ChartData.categorical rows)).tick_labels =
      rows.map Prod.fst := by
  refine ⟨rfl, ?_⟩
  cases rows with
  | nil => simp [barExecute]
  | cons r rest =>
    simp only [barExecute, List.map_cons, in_axis_range_bounds_cat,
      List.filter_true]
    rw [enum_map_snd_fun (r :: rest) Prod.fst, List.map_cons]

/-- C7: the value-axis range of a categorical build is the minimum and
maximum of the value column (column 1): it bounds every value, both bounds
are attained by some value, and it is independent of the user's axis
settings (any two settings yield the same value range). -/
theorem categorical_value_range (dims0 : Dims) (s0 s1 : AxisSettings)
    (bs : ℚ × ℚ) (rows : List (String × ℚ)) (h : rows ≠ []) :
    ∃ dmin dmax,
      (barExecute dims0 s0 bs (ChartData.categorical rows)).axis_spec.map
        (fun a => a.ranges.2.2) = some (dmin, dmax) ∧
      (∀ r ∈ rows, dmin ≤ r.2 ∧ r.2 ≤ dmax) ∧
      dmin ∈ rows.map Prod.snd ∧
      dmax ∈ rows.map Prod.snd ∧
      (barExecute dims0 s1 bs (ChartData.categorical rows)).axis_spec.map
        (fun a => a.ranges.2.2) = some (dmin, dmax) := by
  cases rows with
  | nil => simp at h
  | cons r rest =>
    refine ⟨List.foldl min r.2 (rest.map Prod.snd),
      List.foldl max r.2 (rest.map Prod.snd),
      by simp [barExecute], ?_, ?_, ?_, by simp [barExecute]⟩
    · intro r' hr'
      have hmem : r'.2 ∈ (r :: rest).map Prod.snd :=
        List.mem_map_of_mem Prod.snd hr'
      rw [List.map_cons] at hmem
      rcases List.mem_cons.1 hmem with h' | h'
      · rw [h']
        exact ⟨foldl_min_le_self _ _, foldl_max_self_le _ _⟩
      · exact ⟨foldl_min_le _ _ _ h', foldl_max_le _ _ _ h'⟩
    · rw [List.map_cons]
      exact foldl_min_mem r.2 (rest.map Prod.snd)
    · rw [List.map_cons]
      exact foldl_max_mem r.2 (rest.map Prod.snd)

/-- Witness for C7: a concrete three-row categorical table has value range
`[1, 5]`, and the same range under different axis settings. -/
theorem categorical_value_range_witness :
    ∃ dmin dmax,
      (barExecute Dims.two ⟨true, (0, 9), (0, 9)⟩ (1 / 20, 1 / 20)
        (ChartData.categorical [("A", 3), ("B", 1), ("C", 5)])).axis_spec.map
        (fun a => a.ranges.2.2) = some (dmin, dmax) ∧
      (∀ r ∈ [(("A" : String), (3 : ℚ)), ("B", 1), ("C", 5)],
        dmin ≤ r.2 ∧ r.2 ≤ dmax) ∧
      dmin ∈ [(("A" : String), (3 : ℚ)), ("B", 1), ("C", 5)].map Prod.snd ∧
      dmax ∈ [(("A" : String), (3 : ℚ)), ("B", 1), ("C", 5)].map Prod.snd ∧
      (barExecute Dims.two ⟨false, (4, 7), (2, 3)⟩ (1 / 20, 1 / 20)
        (ChartData.categorical [("A", 3), ("B", 1), ("C", 5)])).axis_spec.map
        (fun a => a.ranges.2.2) = some (dmin, dmax) :=
  categorical_value_range Dims.two ⟨true, (0, 9), (0, 9)⟩ ⟨false, (4, 7), (2, 3)⟩
    (1 / 20, 1 / 20) [("A", 3), ("B", 1), ("C", 5)] (by simp)

theorem barExecute_finished_or_empty (dims0 : Dims) (s0 : AxisSettings)
    (bs : ℚ × ℚ) (data : ChartData) :
    (barExecute dims0 s0 bs data).status = ExecStatus.finished ∨
    ((barExecute dims0 s0 bs data).placements = [] ∧
      (barExecute dims0 s0 bs data).axis_spec = none ∧
      (barExecute dims0 s0 bs data).tick_labels = []) := by
  cases data with
  | numerical rows =>
    simp only [barExecute]
    repeat' split
    all_goals simp
  | categorical rows =>
    simp only [barExecute]
    repeat' split
    all_goals simp

/-- C8: when a build fails (the status is cancelled with some error), no
partial results are produced: there are no placements, no axis-factory
call, and no collected tick labels. -/
theorem build_failure_no_partial (dims0 : Dims) (s0 : AxisSettings)
    (bs : ℚ × ℚ) (data : ChartData) (e : BuildError)
    (h : (barExecute dims0 s0 bs data).status = ExecStatus.cancelled e) :
    (barExecute dims0 s0 bs data).placements = [] ∧
    (barExecute dims0 s0 bs data).axis_spec = none ∧
    (barExecute dims0 s0 bs data).tick_labels = [] := by
  rcases barExecute_finished_or_empty dims0 s0 bs data with hf | he
  · rw [h] at hf
    exact absurd hf (by simp)
  · exact he

/-- Witness for C8: a concrete failing build (3D request over 2-column
data) produces no placements, no axis call, and no tick labels. -/
theorem build_failure_no_partial_witness :
    (barExecute Dims.three ⟨false, (0, 1), (0, 1)⟩ (1 / 20, 1 / 20)
      (ChartData.numerical [[1, 2], [3, 4]])).placements = [] ∧
    (barExecute Dims.three ⟨false, (0, 1), (0, 1)⟩ (1 / 20, 1 / 20)
      (ChartData.numerical [[1, 2], [3, 4]])).axis_spec = none ∧
    (barExecute Dims.three ⟨false, (0, 1), (0, 1)⟩ (1 / 20, 1 / 20)
      (ChartData.numerical [[1, 2], [3, 4]])).tick_labels = [] :=
  build_failure_no_partial Dims.three ⟨false, (0, 1), (0, 1)⟩ (1 / 20, 1 / 20)
    (ChartData.numerical [[1, 2], [3, 4]]) BuildError.dimensionMismatch rfl

/-- C9: the chart build is deterministic: two invocations with identical
dimensionality request, axis settings, bar size and data table produce
identical outcomes (statuses, placements, tick labels and axis
specifications), and a failing invocation reproduces the same error when
re-invoked with identical arguments. -/
theorem build_deterministic (d1 d2 : Dims) (s1 s2 : AxisSettings)
    (b1 b2 : ℚ × ℚ) (data1 data2 : ChartData)
    (h : d1 = d2 ∧ s1 = s2 ∧ b1 = b2 ∧ data1 = data2) :
    barExecute d1 s1 b1 data1 = barExecute d2 s2 b2 data2 ∧
    ∀ e, (barExecute d1 s1 b1 data1).status = ExecStatus.cancelled e →
      (barExecute d2 s2 b2 data2).status = ExecStatus.cancelled e := by
  obtain ⟨h1, h2, h3, h4⟩ := h
  subst h1
  subst h2
  subst h3
  subst h4
  exact ⟨rfl, fun _ he => he⟩

/-- Witness for C9: two identical concrete invocations agree, and the
failing one reproduces its error. -/
theorem build_deterministic_witness :
    barExecute Dims.three ⟨false, (0, 1), (0, 1)⟩ (1 / 20, 1 / 20)
      (ChartData.numerical [[1, 2]]) =
    barExecute Dims.three ⟨false, (0, 1), (0, 1)⟩ (1 / 20, 1 / 20)
      (ChartData.numerical [[1, 2]]) ∧
    (barExecute Dims.three ⟨false, (0, 1), (0, 1)⟩ (1 / 20, 1 / 20)
      (ChartData.numerical [[1, 2]])).status =
      ExecStatus.cancelled BuildError.dimensionMismatch :=
  ⟨(build_deterministic Dims.three Dims.three ⟨false, (0, 1), (0, 1)⟩
      ⟨false, (0, 1), (0, 1)⟩ (1 / 20, 1 / 20) (1 / 20, 1 / 20)
      (ChartData.numerical [[1, 2]]) (ChartData.numerical [[1, 2]])
      ⟨rfl, rfl, rfl, rfl⟩).1,
    (build_deterministic Dims.three Dims.three ⟨false, (0, 1), (0, 1)⟩
      ⟨false, (0, 1), (0, 1)⟩ (1 / 20, 1 / 20) (1 / 20, 1 / 20)
      (ChartData.numerical [[1, 2]]) (ChartData.numerical [[1, 2]])
      ⟨rfl, rfl, rfl, rfl⟩).2 BuildError.dimensionMismatch rfl⟩

theorem takeWhile_append_of_all {α : Type} (p : α → Bool) (xs ys : List α)
    (h : ∀ x ∈ xs, p x = true) :
    (xs ++ ys).takeWhile p = xs ++ ys.takeWhile p := by
  induction xs with
  | nil => simp
  | cons a t ih =>
    have ha : p a = true := h a (List.mem_cons_self _ _)
    simp [List.takeWhile_cons, ha,
      ih (fun x hx => h x (List.mem_cons_of_mem _ hx))]

theorem dropWhile_append_of_all {α : Type} (p : α → Bool) (xs ys : List α)
    (h : ∀ x ∈ xs, p x = true) :
    (xs ++ ys).dropWhile p = ys.dropWhile p := by
  induction xs with
  | nil => simp
  | cons a t ih =>
    have ha : p a = true := h a (List.mem_cons_self _ _)
    simp [List.dropWhile_cons, ha,
      ih (fun x hx => h x (List.mem_cons_of_mem _ hx))]

theorem stripRev_append (base ds : List Char) (h1 : ds ≠ [])
    (h2 : ∀ c ∈ ds, isPyDigit c = true) :
    stripRev (ds.reverse ++ '.' :: base.reverse) = base.reverse := by
  have hall : ∀ c ∈ ds.reverse, isPyDigit c = true := fun c hc =>
    h2 c (List.mem_reverse.1 hc)
  have hdot : isPyDigit '.' = false := by decide
  have htake : (ds.reverse ++ '.' :: base.reverse).takeWhile isPyDigit =
      ds.reverse := by
    rw [takeWhile_append_of_all _ _ _ hall]
    simp [List.takeWhile_cons, hdot]
  have hdrop : (ds.reverse ++ '.' :: base.reverse).dropWhile isPyDigit =
      '.' :: base.reverse := by
    rw [dropWhile_append_of_all _ _ _ hall]
    simp [List.dropWhile_cons, hdot]
  have hne : ds.reverse ≠ [] := by simpa using h1
  obtain ⟨d0, ds', hds⟩ := List.exists_cons_of_ne_nil hne
  rw [stripRev, htake, hdrop, hds]
  simp

theorem stripRev_cases (rev : List Char) :
    stripRev rev = rev ∨
    ∃ ds rest, ds ≠ [] ∧ (∀ c ∈ ds, isPyDigit c = true) ∧
      rev = ds ++ '.' :: rest ∧ stripRev rev = rest := by
  rcases htake : rev.takeWhile isPyDigit with _ | ⟨d0, ds'⟩
  · left
    rw [stripRev, htake]
  · rcases hdrop : rev.dropWhile isPyDigit with _ | ⟨c, rest⟩
    · left
      rw [stripRev, htake, hdrop]
    · by_cases hc : c = '.'
      · right
        subst hc
        refine ⟨d0 :: ds', rest, by simp, ?_, ?_, ?_⟩
        · intro ch hch
          have hmem : ch ∈ rev.takeWhile isPyDigit := by
            rw [htake]
            exact hch
          exact List.mem_takeWhile_imp hmem
        · rw [← htake, ← hdrop, List.takeWhile_append_dropWhile]
        · rw [stripRev, htake, hdrop]
          simp
      · left
        rw [stripRev, htake, hdrop]
        simp [hc]

theorem removeDuplicateSuffix_append (base ds : List Char) (h1 : ds ≠ [])
    (h2 : ∀ c ∈ ds, isPyDigit c = true) :
    removeDuplicateSuffix (base ++ '.' :: ds) = base := by
  have hne : ds.reverse ≠ [] := by simpa using h1
  obtain ⟨d0, ds', hds⟩ := List.exists_cons_of_ne_nil hne
  have hd0 : isPyDigit d0 = true := by
    refine h2 d0 (List.mem_reverse.1 ?_)
    rw [hds]
    exact List.mem_cons_self _ _
  have hd0n : d0 ≠ '\n' := by
    intro hcontra
    rw [hcontra] at hd0
    exact absurd hd0 (by decide)
  have hrev : (base ++ '.' :: ds).reverse = d0 :: (ds' ++ '.' :: base.reverse) := by
    rw [List.reverse_append, List.reverse_cons, hds]
    simp
  have hstrip := stripRev_append base ds h1 h2
  rw [hds, List.cons_append] at hstrip
  rw [removeDuplicateSuffix, hrev]
  simp [hd0n, hstrip]

theorem removeDuplicateSuffix_append_newline (base ds : List Char)
    (h1 : ds ≠ []) (h2 : ∀ c ∈ ds, isPyDigit c = true) :
    removeDuplicateSuffix (base ++ '.' :: (ds ++ ['\n'])) = base ++ ['\n'] := by
  have hrev : (base ++ '.' :: (ds ++ ['\n'])).reverse =
      '\n' :: (ds.reverse ++ '.' :: base.reverse) := by
    simp
  rw [removeDuplicateSuffix, hrev]
  simp [stripRev_append base ds h1 h2]

theorem removeDuplicateSuffix_eq_of_no_suffix (name : List Char)
    (h : ∀ b d, d ≠ [] → (∀ c ∈ d, isPyDigit c = true) →
      name ≠ b ++ '.' :: d ∧ name ≠ b ++ '.' :: (d ++ ['\n'])) :
    removeDuplicateSuffix name = name := by
  rcases hrev : name.reverse with _ | ⟨c, brev⟩
  · rw [removeDuplicateSuffix, hrev]
  · have hname0 : name = (c :: brev).reverse := by
      have h' := congrArg List.reverse hrev
      rw [List.reverse_reverse] at h'
      exact h'
    by_cases hc : c = '\n'
    · subst hc
      rcases stripRev_cases brev with hs | ⟨ds, rest, hds, hall, hbrev, _⟩
      · rw [removeDuplicateSuffix, hrev, hname0]
        simp [hs]
      · exfalso
        have hname2 : name = rest.reverse ++ '.' :: (ds.reverse ++ ['\n']) := by
          rw [hname0, hbrev]
          simp
        have hd2 : ds.reverse ≠ [] := by simpa using hds
        have hall2 : ∀ c' ∈ ds.reverse, isPyDigit c' = true := fun c' hc' =>
          hall c' (List.mem_reverse.1 hc')
        exact (h rest.reverse ds.reverse hd2 hall2).2 hname2
    · rcases stripRev_cases (c :: brev) with hs | ⟨ds, rest, hds, hall, hbrev, _⟩
      · rw [removeDuplicateSuffix, hrev, hname0]
        simp [hc, hs]
      · exfalso
        have hname2 : name = rest.reverse ++ '.' :: ds.reverse := by
          rw [hname0, hbrev]
          simp
        have hd2 : ds.reverse ≠ [] := by simpa using hds
        have hall2 : ∀ c' ∈ ds.reverse, isPyDigit c' = true := fun c' hc' =>
          hall c' (List.mem_reverse.1 hc')
        exact (h rest.reverse ds.reverse hd2 hall2).1 hname2

theorem head_reverse_digit_of_decomposition (name b d : List Char)
    (hd : d ≠ []) (hall : ∀ c ∈ d, isPyDigit c = true)
    (heq : name = b ++ '.' :: d) :
    ∃ c, name.reverse.head? = some c ∧ isPyDigit c = true := by
  subst heq
  have hne : d.reverse ≠ [] := by simpa using hd
  obtain ⟨x, t, hx⟩ := List.exists_cons_of_ne_nil hne
  have hrev : (b ++ '.' :: d).reverse = d.reverse ++ '.' :: b.reverse := by
    simp
  refine ⟨x, ?_, ?_⟩
  · rw [hrev, hx, List.cons_append]
    rfl
  · refine hall x (List.mem_reverse.1 ?_)
    rw [hx]
    exact List.mem_cons_self x t

theorem head_reverse_newline_decomposition (name b d : List Char)
    (heq : name = b ++ '.' :: (d ++ ['\n'])) :
    name.reverse.head? = some '\n' := by
  subst heq
  simp

/-- Counterexample to C10 as frozen: the name `a.001\n` does not end in a
dot-digits suffix (its last character is a newline, which is not a digit),
yet `remove_duplicate_suffix` does not return it unchanged: the regex `$`
also matches immediately before a newline that ends the string, so the
suffix `.001` is stripped and `a\n` is returned. -/
theorem remove_duplicate_suffix_trailing_newline_counterexample :
    removeDuplicateSuffix ("a.001\n".data) = "a\n".data ∧
    ("a.001\n".data).getLast? = some '\n' ∧
    isPyDigit '\n' = false := by
  refine ⟨by decide, by decide, by decide⟩

/-- C10 (amended): `remove_duplicate_suffix` removes exactly one occurrence
of a dot followed by one or more Unicode decimal digits when that
occurrence ends at the end of the name or immediately before a final
newline (the two positions Python's `$` matches); the stripped result keeps
any interior occurrences, since it keeps the whole prefix before the final
dot, and a name containing no such occurrence is returned unchanged. -/
theorem remove_duplicate_suffix_spec (name base ds : List Char) :
    (ds ≠ [] → (∀ c ∈ ds, isPyDigit c = true) →
      removeDuplicateSuffix (base ++ '.' :: ds) = base ∧
      removeDuplicateSuffix (base ++ '.' :: (ds ++ ['\n'])) = base ++ ['\n']) ∧
    ((∀ b d, d ≠ [] → (∀ c ∈ d, isPyDigit c = true) →
        name ≠ b ++ '.' :: d ∧ name ≠ b ++ '.' :: (d ++ ['\n'])) →
      removeDuplicateSuffix name = name) :=
  ⟨fun h1 h2 => ⟨removeDuplicateSuffix_append base ds h1 h2,
    removeDuplicateSuffix_append_newline base ds h1 h2⟩,
   fun h => removeDuplicateSuffix_eq_of_no_suffix name h⟩

/-- Witness for C10: the duplicate suffix `.001` is stripped from
`DV_NumericAxis.001`, only the last suffix of `x.001.002` is stripped, the
Arabic-Indic digit suffix of `a.١٢٣` is stripped, the suffix of `b.001`
before a final newline is stripped, and `a.001b`, whose dot-digits pattern
sits in the interior, is unchanged. -/
theorem remove_duplicate_suffix_spec_witness :
    removeDuplicateSuffix ("DV_NumericAxis.001".data) = "DV_NumericAxis".data ∧
    removeDuplicateSuffix ("x.001.002".data) = "x.001".data ∧
    removeDuplicateSuffix ("a.١٢٣".data) = "a".data ∧
    removeDuplicateSuffix ("b.001\n".data) = "b\n".data ∧
    removeDuplicateSuffix ("a.001b".data) = "a.001b".data := by
  refine ⟨?_, ?_, ?_, ?_, ?_⟩
  · exact ((remove_duplicate_suffix_spec [] ("DV_NumericAxis".data)
      ['0', '0', '1']).1 (by decide) (by decide)).1
  · exact ((remove_duplicate_suffix_spec [] ("x.001".data)
      ['0', '0', '2']).1 (by decide) (by decide)).1
  · exact ((remove_duplicate_suffix_spec [] ("a".data)
      ['١', '٢', '٣']).1 (by decide) (by decide)).1
  · exact ((remove_duplicate_suffix_spec [] ("b".data)
      ['0', '0', '1']).1 (by decide) (by decide)).2
  · refine (remove_duplicate_suffix_spec ("a.001b".data) [] []).2 ?_
    intro b d hd hall
    constructor
    · intro heq
      obtain ⟨c, hc, hdig⟩ :=
        head_reverse_digit_of_decomposition ("a.001b".data) b d hd hall heq
      rw [show ("a.001b".data).reverse.head? = some 'b' from rfl] at hc
      cases hc
      exact absurd hdig (by decide)
    · intro heq
      exact absurd (head_reverse_newline_decomposition ("a.001b".data) b d heq)
        (by decide)

end DataVis
